import Mathlib

/-!
Shallow embedding of the ink! contract `simple_contract` (src/simple_contract/lib.rs),
an automated-market-maker pool over two token identifiers, together with proofs about
its operations.

Modelling conventions:
- `Balance` (u128 in the source) is embedded as `Nat`; the spec (section 3) demands a
  width large enough that no product overflows, so additions and multiplications are
  unbounded.  The one subtraction that the Rust build (with overflow checks, as
  `cargo-contract` enforces) could abort on at runtime - the debit of the caller
  balance of the outgoing token - is modelled as an explicit check that produces an
  error; the remaining subtractions are mathematically incapable of underflow given
  the guards that precede them in the source, and one extra guard
  (`reserveUnderflow`) is kept to mirror the checked subtraction of the reserve.
- ink! storage `Mapping` reads always go through `unwrap_or_default`, so a mapping is
  embedded as a total function with default 0; `mapInsert` is pointwise update.
- An ink! message that panics (a failed `assert!` or a checked-arithmetic abort)
  reverts every storage write of the call.  `swap` is therefore embedded as an
  `Except`-valued transition, and `swapCall` is the observable message-call
  semantics: on success the new state, on any panic the unchanged old state.
- The caller (`self.env().caller()`) is passed as an explicit argument.
-/

namespace SimpleContractAmm

abbrev TokenId := Nat

abbrev Balance := Nat

abbrev AccountId := Nat

/-- Pointwise update of a total map, the embedding of `Mapping::insert`. -/
def mapInsert {α β : Type} [DecidableEq α] (m : α → β) (k : α) (v : β) : α → β :=
  fun k' => if k' = k then v else m k'

/-- The two assets composing the pool (struct `AmmPool` in the source). -/
structure AmmPool where
  token_0 : TokenId
  token_1 : TokenId

/-- Contract storage (struct `SimpleContract` in the source). -/
structure SimpleContract where
  pool : AmmPool
  reserves : TokenId → Balance
  balances : AccountId × TokenId → Balance
  fees : TokenId → Balance

/-- Constructor `new`: empty mappings, pool fixed to the two given tokens. -/
def SimpleContract.new (token_0 token_1 : TokenId) : SimpleContract :=
  { pool := { token_0 := token_0, token_1 := token_1 }
    reserves := fun _ => 0
    balances := fun _ => 0
    fees := fun _ => 0 }

/-- Constructor `default` in the source: `new(0, 1)`. -/
def SimpleContract.defaultState : SimpleContract := SimpleContract.new 0 1

/-- Message `add_liquidity`: credits both reserves and both caller balances by the
same `amount`, reading each old value from the mapping in the order of the source. -/
def add_liquidity (s : SimpleContract) (caller : AccountId) (amount : Balance) :
    SimpleContract :=
  let token_0 := s.pool.token_0
  let token_1 := s.pool.token_1
  let old_token_0_amount := s.reserves token_0
  let new_token_0_amount := old_token_0_amount + amount
  let reserves1 := mapInsert s.reserves token_0 new_token_0_amount
  let old_token_1_amount := reserves1 token_1
  let new_token_1_amount := old_token_1_amount + amount
  let reserves2 := mapInsert reserves1 token_1 new_token_1_amount
  let old_token_0_balance := s.balances (caller, token_0)
  let new_token_0_balance := old_token_0_balance + amount
  let balances1 := mapInsert s.balances (caller, token_0) new_token_0_balance
  let old_token_1_balance := balances1 (caller, token_1)
  let new_token_1_balance := old_token_1_balance + amount
  let balances2 := mapInsert balances1 (caller, token_1) new_token_1_balance
  { s with reserves := reserves2, balances := balances2 }

/-- Failure modes of `swap`; every one is a panic in the source and therefore
reverts the call. -/
inductive SwapError where
  | unknownAsset
  | insufficientLiquidity
  | reserveUnderflow
  | balanceUnderflow
deriving DecidableEq

/-- Resolution of the incoming token to the stored pool token, first component of
the tuple computed by the source. -/
def resolved_token_in (s : SimpleContract) (token_in : TokenId) : TokenId :=
  if token_in = s.pool.token_0 then s.pool.token_0 else s.pool.token_1

/-- Resolution of the outgoing token, second component of the tuple computed by the
source. -/
def resolved_token_out (s : SimpleContract) (token_in : TokenId) : TokenId :=
  if token_in = s.pool.token_0 then s.pool.token_1 else s.pool.token_0

/-- Message `swap`, following the source line by line: membership assert, token
resolution, reserve reads, fee computation, the (misdirected) fee write into the
`reserves` mapping, output computation, liquidity assert, and the four transfer
writes.  Checked subtractions that the Rust build could abort on appear as error
branches. -/
def swap (s : SimpleContract) (caller : AccountId) (token_in0 : TokenId)
    (amount : Balance) : Except SwapError (SimpleContract × Balance) :=
  if token_in0 = s.pool.token_0 ∨ token_in0 = s.pool.token_1 then
    let token_in := resolved_token_in s token_in0
    let token_out := resolved_token_out s token_in0
    let reserve_in := s.reserves token_in
    let reserve_out := s.reserves token_out
    let token_in_amount := amount * 997 / 1000
    let fee := amount - token_in_amount
    let old_fee := s.reserves token_in
    let new_fee := old_fee + fee
    let reserves1 := mapInsert s.reserves token_in new_fee
    let token_out_amount :=
      if reserve_in + token_in_amount ≠ 0 then
        reserve_out * token_in_amount / (reserve_in + token_in_amount)
      else 0
    let pool_reserve_out := reserves1 token_out
    if token_out_amount ≤ pool_reserve_out then
      let new_reserve_in := reserve_in + token_in_amount
      let reserves2 := mapInsert reserves1 token_in new_reserve_in
      let old_balance_in := s.balances (caller, token_in)
      let new_balance_in := old_balance_in + token_in_amount
      let balances1 := mapInsert s.balances (caller, token_in) new_balance_in
      if token_out_amount ≤ reserve_out then
        let new_reserve_out := reserve_out - token_out_amount
        let reserves3 := mapInsert reserves2 token_out new_reserve_out
        let old_balance_out := balances1 (caller, token_out)
        if token_out_amount ≤ old_balance_out then
          let new_balance_out := old_balance_out - token_out_amount
          let balances2 := mapInsert balances1 (caller, token_out) new_balance_out
          .ok ({ s with reserves := reserves3, balances := balances2 },
               token_out_amount)
        else .error .balanceUnderflow
      else .error .reserveUnderflow
    else .error .insufficientLiquidity
  else .error .unknownAsset

/-- Observable semantics of a `swap` message call: a panic reverts every storage
write, so on error the state is the unchanged input state. -/
def swapCall (s : SimpleContract) (caller : AccountId) (token_in : TokenId)
    (amount : Balance) : SimpleContract × Option Balance :=
  match swap s caller token_in amount with
  | .ok (s2, out) => (s2, some out)
  | .error _ => (s, none)

/-- Message `remove_liquidity` as it stands in the source: an empty body (the
`todo` is commented out), hence a no-op that can never fail. -/
def remove_liquidity (s : SimpleContract) : SimpleContract := s

/-- Query `get_reserve`. -/
def get_reserve (s : SimpleContract) (token : TokenId) : Balance :=
  s.reserves token

/-- Query `get_balance` (the account is the ambient caller in the source). -/
def get_balance (s : SimpleContract) (caller : AccountId) (token : TokenId) :
    Balance :=
  s.balances (caller, token)

/-- Query `get_fees`. -/
def get_fees (s : SimpleContract) (token : TokenId) : Balance :=
  s.fees token

/-- States reachable from a freshly constructed contract by message calls. -/
inductive Reachable : SimpleContract → Prop where
  | new (token_0 token_1 : TokenId) : Reachable (SimpleContract.new token_0 token_1)
  | add (s : SimpleContract) (caller : AccountId) (amount : Balance) :
      Reachable s → Reachable (add_liquidity s caller amount)
  | swapStep (s : SimpleContract) (caller : AccountId) (token_in : TokenId)
      (amount : Balance) :
      Reachable s → Reachable (swapCall s caller token_in amount).1
  | remove (s : SimpleContract) : Reachable s → Reachable (remove_liquidity s)

/-- The state after Scenario 1 of the spec: fresh pool over assets 0 and 1, then
`add_liquidity(caller 0, 1000)`. -/
def scenario1_state : SimpleContract := add_liquidity (SimpleContract.new 0 1) 0 1000

/-- Failure modes of the specified liquidity withdrawal. -/
inductive RemoveLiquidityError where
  | poolEmpty
  | insufficientShare
deriving DecidableEq

/-- Modelled from the spec: the state a liquidity-share accounting needs.  The
source contract stores no liquidity claims and no total share supply (its
`remove_liquidity` is an empty stub), so the spec (sections 3 and 4.4) supplies
them: per-account liquidity claims and the outstanding total share supply, next to
the reserves and ledger balances. -/
structure LiquidityModelState where
  asset_a : TokenId
  asset_b : TokenId
  reserves : TokenId → Balance
  balances : AccountId × TokenId → Balance
  claims : AccountId → Balance
  total_liquidity_supply : Balance

/-- Modelled from the spec: `remove_liquidity(caller, share_amount)` per section
4.4, which the source leaves unimplemented.  Fail with `PoolEmpty` when
`total_liquidity_supply = 0`; fail with `InsufficientShare` when the recorded claim
of the caller is below `share_amount`; otherwise withdraw
`reserve(asset) * share_amount / total_liquidity_supply` from each reserve, credit
the caller with those amounts, burn the share. -/
def spec_remove_liquidity (m : LiquidityModelState) (caller : AccountId)
    (share_amount : Balance) : Except RemoveLiquidityError LiquidityModelState :=
  if m.total_liquidity_supply = 0 then .error .poolEmpty
  else if m.claims caller < share_amount then .error .insufficientShare
  else
    let wa := m.reserves m.asset_a * share_amount / m.total_liquidity_supply
    let wb := m.reserves m.asset_b * share_amount / m.total_liquidity_supply
    let reserves1 := mapInsert m.reserves m.asset_a (m.reserves m.asset_a - wa)
    let reserves2 := mapInsert reserves1 m.asset_b (reserves1 m.asset_b - wb)
    let balances1 :=
      mapInsert m.balances (caller, m.asset_a) (m.balances (caller, m.asset_a) + wa)
    let balances2 :=
      mapInsert balances1 (caller, m.asset_b) (balances1 (caller, m.asset_b) + wb)
    .ok { m with
      reserves := reserves2
      balances := balances2
      claims := mapInsert m.claims caller (m.claims caller - share_amount)
      total_liquidity_supply := m.total_liquidity_supply - share_amount }

/-- Message-call semantics of the specified withdrawal: a failure leaves the state
untouched. -/
def removeLiquidityCall (m : LiquidityModelState) (caller : AccountId)
    (share_amount : Balance) : LiquidityModelState × Bool :=
  match spec_remove_liquidity m caller share_amount with
  | .ok m2 => (m2, true)
  | .error _ => (m, false)

/-- A model state with no outstanding liquidity shares. -/
def empty_model : LiquidityModelState :=
  { asset_a := 0, asset_b := 1, reserves := fun _ => 0, balances := fun _ => 0
    claims := fun _ => 0, total_liquidity_supply := 0 }

/-- A model state with outstanding shares, used to exercise the success path. -/
def demo_model : LiquidityModelState :=
  { asset_a := 0, asset_b := 1, reserves := fun _ => 100, balances := fun _ => 0
    claims := fun _ => 10, total_liquidity_supply := 10 }

/-- The after-fee input of the spec, following its words: `amount_in_after_fee =
floor(amount_in * 997 / 1000)` (section 4.3, step 2). -/
def spec_amount_in_after_fee (amount_in : Balance) : Balance :=
  amount_in * 997 / 1000

/-- The swap output of the spec, following its words: `amount_out =
floor(reserve_out * amount_in_after_fee / (reserve_in + amount_in_after_fee))`,
and 0 in the degenerate case `reserve_in + amount_in_after_fee = 0` (section 4.3,
step 3). -/
def spec_amount_out (reserve_in reserve_out amount_in : Balance) : Balance :=
  if reserve_in + spec_amount_in_after_fee amount_in = 0 then 0
  else
    reserve_out * spec_amount_in_after_fee amount_in /
      (reserve_in + spec_amount_in_after_fee amount_in)

theorem mapInsert_apply_self {α β : Type} [DecidableEq α] (m : α → β) (k : α) (v : β) :
    mapInsert m k v k = v := by
  simp [mapInsert]

theorem mapInsert_apply_ne {α β : Type} [DecidableEq α] (m : α → β) {k k' : α} (v : β)
    (h : k' ≠ k) : mapInsert m k v k' = m k' := by
  simp [mapInsert, h]

@[simp] theorem mapInsert_self {α β : Type} [DecidableEq α] (m : α → β) (k : α) :
    mapInsert m k (m k) = m := by
  funext k'
  by_cases h : k' = k
  · subst h; simp [mapInsert]
  · simp [mapInsert, h]

/-- The computed swap output never exceeds the outgoing reserve read at entry. -/
theorem swap_output_le_reserve_out (r_in r_out x : ℕ) :
    (if r_in + x ≠ 0 then r_out * x / (r_in + x) else 0) ≤ r_out := by
  split
  · next hd =>
    have hdpos : 0 < r_in + x := Nat.pos_of_ne_zero hd
    have h2 : r_out * x ≤ r_out * (r_in + x) :=
      Nat.mul_le_mul (le_refl r_out) (Nat.le_add_left x r_in)
    have h3 : r_out * x / (r_in + x) ≤ r_out * (r_in + x) / (r_in + x) :=
      Nat.div_le_div_right h2
    simpa [Nat.mul_div_cancel _ hdpos] using h3
  · exact Nat.zero_le _

/-- Core arithmetic of the constant-product bound: removing the floored output from
the outgoing reserve while adding the after-fee input to the incoming reserve never
decreases the product of the reserves. -/
theorem constant_product_key (r_in r_out x : ℕ) :
    r_in * r_out ≤
      (r_in + x) * (r_out - (if r_in + x ≠ 0 then r_out * x / (r_in + x) else 0)) := by
  by_cases hd : r_in + x = 0
  · have h1 : r_in = 0 := by omega
    simp [hd, h1]
  · rw [if_pos hd]
    have hdpos : 0 < r_in + x := Nat.pos_of_ne_zero hd
    have hqd : r_out * x / (r_in + x) * (r_in + x) ≤ r_out * x := Nat.div_mul_le_self _ _
    have hqle : r_out * x / (r_in + x) ≤ r_out := by
      have := swap_output_le_reserve_out r_in r_out x
      rwa [if_pos hd] at this
    set q := r_out * x / (r_in + x) with hq
    have key : r_in * r_out + (r_in + x) * q ≤ (r_in + x) * r_out := by
      have h4 : (r_in + x) * q ≤ x * r_out := by
        calc (r_in + x) * q = q * (r_in + x) := Nat.mul_comm _ _
          _ ≤ r_out * x := hqd
          _ = x * r_out := Nat.mul_comm _ _
      calc r_in * r_out + (r_in + x) * q
          ≤ r_in * r_out + x * r_out := Nat.add_le_add_left h4 _
        _ = (r_in + x) * r_out := by ring
    have h5 : (r_in + x) * (r_out - q) + (r_in + x) * q = (r_in + x) * r_out := by
      rw [← Nat.mul_add, Nat.sub_add_cancel hqle]
    have h6 : r_in * r_out + (r_in + x) * q ≤ (r_in + x) * (r_out - q) + (r_in + x) * q := by
      rw [h5]; exact key
    exact Nat.le_of_add_le_add_right h6

/-- Characterisation of a successful `swap`: membership of the incoming token, the
fee mapping untouched, the returned amount given by the constant-product formula on
the entry reserves, the bound on the output, and (for distinct resolved tokens) the
final values of the two reserves. -/
theorem swap_ok_destruct {s : SimpleContract} {c : AccountId} {t : TokenId}
    {a : Balance} {s2 : SimpleContract} {out : Balance}
    (h : swap s c t a = .ok (s2, out)) :
    (t = s.pool.token_0 ∨ t = s.pool.token_1) ∧
    s2.fees = s.fees ∧
    out = (if s.reserves (resolved_token_in s t) + a * 997 / 1000 ≠ 0 then
            s.reserves (resolved_token_out s t) * (a * 997 / 1000) /
              (s.reserves (resolved_token_in s t) + a * 997 / 1000)
          else 0) ∧
    out ≤ s.reserves (resolved_token_out s t) ∧
    (resolved_token_in s t ≠ resolved_token_out s t →
      s2.reserves (resolved_token_in s t) =
        s.reserves (resolved_token_in s t) + a * 997 / 1000 ∧
      s2.reserves (resolved_token_out s t) =
        s.reserves (resolved_token_out s t) - out) := by
  simp only [swap] at h
  split at h
  case isFalse => exact Except.noConfusion h
  case isTrue hmem =>
  refine ⟨hmem, ?_⟩
  split at h
  case isTrue hne =>
    split at h
    case isFalse => exact Except.noConfusion h
    case isTrue hliq =>
    split at h
    case isFalse => exact Except.noConfusion h
    case isTrue hres =>
    split at h
    case isFalse => exact Except.noConfusion h
    case isTrue hbal =>
    injection h with h1
    injection h1 with hs hout
    subst hs
    subst hout
    refine ⟨rfl, ?_, hres, ?_⟩
    · rw [if_pos hne]
    · intro hdiff
      constructor
      · dsimp only
        rw [mapInsert_apply_ne _ _ hdiff, mapInsert_apply_self]
      · dsimp only
        rw [mapInsert_apply_self]
  case isFalse hne =>
    rw [if_pos (Nat.zero_le _), if_pos (Nat.zero_le _), if_pos (Nat.zero_le _)] at h
    injection h with h1
    injection h1 with hs hout
    subst hs
    subst hout
    refine ⟨rfl, ?_, Nat.zero_le _, ?_⟩
    · rw [if_neg hne]
    · intro hdiff
      constructor
      · dsimp only
        rw [mapInsert_apply_ne _ _ hdiff, mapInsert_apply_self]
      · dsimp only
        rw [mapInsert_apply_self]

/-- The `InsufficientLiquidity` assert of `swap` can never fire: the computed
output never exceeds the re-read outgoing pool reserve, because the fee write only
increases the entry of the incoming token and the constant-product quotient is
bounded by the outgoing reserve. -/
theorem swap_insufficientLiquidity_unreachable (s : SimpleContract) (c : AccountId)
    (t : TokenId) (a : Balance) :
    swap s c t a ≠ .error .insufficientLiquidity := by
  intro h
  simp only [swap] at h
  split at h
  case isFalse =>
    injection h with h2
    exact SwapError.noConfusion h2
  case isTrue hmem =>
  split at h
  case isFalse hne =>
    rw [if_pos (Nat.zero_le _), if_pos (Nat.zero_le _), if_pos (Nat.zero_le _)] at h
    exact Except.noConfusion h
  case isTrue hne =>
  have hbase :
      s.reserves (resolved_token_out s t) * (a * 997 / 1000) /
          (s.reserves (resolved_token_in s t) + a * 997 / 1000) ≤
        s.reserves (resolved_token_out s t) := by
    have hb := swap_output_le_reserve_out (s.reserves (resolved_token_in s t))
      (s.reserves (resolved_token_out s t)) (a * 997 / 1000)
    rwa [if_pos hne] at hb
  have hout :
      s.reserves (resolved_token_out s t) * (a * 997 / 1000) /
          (s.reserves (resolved_token_in s t) + a * 997 / 1000) ≤
        mapInsert s.reserves (resolved_token_in s t)
          (s.reserves (resolved_token_in s t) + (a - a * 997 / 1000))
          (resolved_token_out s t) := by
    by_cases hdiff : resolved_token_out s t = resolved_token_in s t
    · rw [hdiff] at hbase ⊢
      rw [mapInsert_apply_self]
      exact le_trans hbase (Nat.le_add_right _ _)
    · rw [mapInsert_apply_ne _ _ hdiff]
      exact hbase
  rw [if_pos hout] at h
  split at h <;>
    first
      | exact Except.noConfusion h
      | (split at h <;>
          first
            | exact Except.noConfusion h
            | (injection h with h2; exact SwapError.noConfusion h2))

/-- Claim C1: for every operation (swap, add_liquidity, remove_liquidity) and
every starting state, a failing operation leaves the state exactly as it was: a
panicking `swap` message reverts to the input state, the specified
`remove_liquidity` reverts on failure, and the source `remove_liquidity` stub and
`add_liquidity` are total and mutate nothing on a failure path (the stub is the
identity; `add_liquidity` has no failure path at all). -/
theorem claim1_failed_operations_revert (s : SimpleContract)
    (m : LiquidityModelState) (c : AccountId) (t : TokenId) (a sh : Balance) :
    ((swap s c t a).isOk = false → swapCall s c t a = (s, none)) ∧
    ((spec_remove_liquidity m c sh).isOk = false →
      removeLiquidityCall m c sh = (m, false)) ∧
    remove_liquidity s = s := by
  refine ⟨?_, ?_, rfl⟩
  · intro hfail
    unfold swapCall
    cases hsw : swap s c t a with
    | ok p => rw [hsw] at hfail; exact Bool.noConfusion hfail
    | error e => rfl
  · intro hfail
    unfold removeLiquidityCall
    cases hrm : spec_remove_liquidity m c sh with
    | ok p => rw [hrm] at hfail; exact Bool.noConfusion hfail
    | error e => rfl

/-- Witness for C1: a swap with a token outside the pool and a withdrawal from an
empty pool both fail and leave the state untouched. -/
theorem claim1_failed_operations_revert_witness :
    swapCall (SimpleContract.new 0 1) 0 5 1 = (SimpleContract.new 0 1, none) ∧
    removeLiquidityCall empty_model 0 3 = (empty_model, false) :=
  ⟨(claim1_failed_operations_revert (SimpleContract.new 0 1) empty_model 0 5 1 3).1
      rfl,
   (claim1_failed_operations_revert (SimpleContract.new 0 1) empty_model 0 5 1 3).2.1
      rfl⟩

/-- Claim C2 (evaluation at the failing input): continuing Scenario 1,
`swap(token_in = 0, amount = 100)` does produce `amount_in_after_fee = 99`,
`amount_out = 90`, `reserve_of(0) = 1099` and `reserve_of(1) = 910`, but
`get_fees(0)` returns 0, not the accrued fee 1 that the claim states: the fee is
written into the `reserves` mapping (under the incoming token) and that write is
overwritten by the later reserve update, so the `fees` mapping stays empty. -/
theorem claim2_scenario2_evaluation :
    100 * 997 / 1000 = 99 ∧
    (swapCall scenario1_state 0 0 100).2 = some 90 ∧
    get_reserve (swapCall scenario1_state 0 0 100).1 0 = 1099 ∧
    get_reserve (swapCall scenario1_state 0 0 100).1 1 = 910 ∧
    get_fees (swapCall scenario1_state 0 0 100).1 0 = 0 :=
  ⟨rfl, rfl, rfl, rfl, rfl⟩

/-- Claim C4 (evaluation at the failing input): after the Scenario 2 swap the
ledger balance of the caller for the outgoing token 1 went from 1000 down to 910 =
1000 - 90: the source subtracts `amount_out` from the caller balance of
`token_out` instead of crediting it, so the claimed value 1000 + 90 is not what
the code produces. -/
theorem claim4_swap_debits_instead_of_crediting :
    get_balance scenario1_state 0 1 = 1000 ∧
    get_balance (swapCall scenario1_state 0 0 100).1 0 1 = 1000 - 90 ∧
    (1000 - 90 : Nat) ≠ 1000 + 90 :=
  ⟨rfl, rfl, by decide⟩

/-- Claim C7: a swap whose incoming token is neither pool asset fails with the
unknown-asset panic and the call leaves the whole state unchanged. -/
theorem claim7_unknown_asset_rejected (s : SimpleContract) (c : AccountId)
    (t : TokenId) (a : Balance) (h0 : t ≠ s.pool.token_0) (h1 : t ≠ s.pool.token_1) :
    swap s c t a = .error .unknownAsset ∧ swapCall s c t a = (s, none) := by
  have hsw : swap s c t a = .error .unknownAsset := by
    rw [swap, if_neg]
    rintro (h | h)
    · exact h0 h
    · exact h1 h
  exact ⟨hsw, by rw [swapCall, hsw]⟩

/-- Witness for C7 at token 7 against the pool over 0 and 1. -/
theorem claim7_unknown_asset_rejected_witness :
    swap (SimpleContract.new 0 1) 0 7 3 = .error .unknownAsset ∧
    swapCall (SimpleContract.new 0 1) 0 7 3 = (SimpleContract.new 0 1, none) :=
  claim7_unknown_asset_rejected (SimpleContract.new 0 1) 0 7 3 (by decide) (by decide)

/-- Counterexample to claim C8 as stated: `swap(token_in = 0, amount = 0)` on a
fresh pool over assets 0 and 1 succeeds (there is no `InvalidAmount` check in the
code), rather than failing. -/
theorem claim8_zero_amount_counterexample :
    (swap (SimpleContract.new 0 1) 0 0 0).isOk = true := rfl

/-- Claim C8 as amended: a swap of amount 0 for a token belonging to the pool is
not rejected; it succeeds, returns 0 and leaves the state exactly unchanged. -/
theorem claim8_zero_amount_swap_is_noop (s : SimpleContract) (c : AccountId)
    (t : TokenId) (h : t = s.pool.token_0 ∨ t = s.pool.token_1) :
    swap s c t 0 = .ok (s, 0) := by
  have hmem : t = s.pool.token_0 ∨ t = s.pool.token_1 := h
  rw [swap, if_pos hmem]
  simp [resolved_token_in, resolved_token_out, mapInsert_self]

/-- Witness for the amended C8 on a fresh pool with token 1. -/
theorem claim8_zero_amount_swap_is_noop_witness :
    swap (SimpleContract.new 0 1) 0 1 0 = .ok (SimpleContract.new 0 1, 0) :=
  claim8_zero_amount_swap_is_noop (SimpleContract.new 0 1) 0 1 (Or.inr rfl)

/-- Claim C10: in every reachable state the fees mapping is empty, so `get_fees`
returns 0 for every token: no operation ever writes the fee accumulator (the swap
fee goes into the reserves mapping and is overwritten by the reserve update). -/
theorem claim10_fees_always_zero (s : SimpleContract) (h : Reachable s)
    (t : TokenId) : get_fees s t = 0 := by
  induction h with
  | new t0 t1 => rfl
  | add s c a hr ih => exact ih
  | swapStep s c tin a hr ih =>
    unfold swapCall
    cases hsw : swap s c tin a with
    | ok p =>
      obtain ⟨s2, out⟩ := p
      have hfees := (swap_ok_destruct hsw).2.1
      unfold get_fees at ih ⊢
      rw [hfees]
      exact ih
    | error e => exact ih
  | remove s hr ih => exact ih

/-- Witness for C10 on the state reached by Scenario 1 followed by the Scenario 2
swap. -/
theorem claim10_fees_always_zero_witness :
    get_fees (swapCall (add_liquidity (SimpleContract.new 0 1) 0 1000) 0 0 100).1
      0 = 0 :=
  claim10_fees_always_zero _
    (Reachable.swapStep _ 0 0 100 (Reachable.add _ 0 1000 (Reachable.new 0 1))) 0

/-- Claim C3: every successful swap returns exactly the spec formula
`floor(reserve_out * amount_in_after_fee / (reserve_in + amount_in_after_fee))`
over the reserves read at entry, with `amount_in_after_fee = floor(amount_in *
997 / 1000)`; and in the degenerate case `reserve_in + amount_in_after_fee = 0`
the swap succeeds and returns 0 rather than failing. -/
theorem claim3_swap_output_matches_spec (s : SimpleContract) (c : AccountId)
    (t : TokenId) (a : Balance)
    (hpool : t = s.pool.token_0 ∨ t = s.pool.token_1) :
    (∀ s2 out, swap s c t a = .ok (s2, out) →
      out = spec_amount_out (s.reserves (resolved_token_in s t))
              (s.reserves (resolved_token_out s t)) a) ∧
    (s.reserves (resolved_token_in s t) + spec_amount_in_after_fee a = 0 →
      (swapCall s c t a).2 = some 0) := by
  constructor
  · intro s2 out h
    have hout := (swap_ok_destruct h).2.2.1
    rw [hout]
    unfold spec_amount_out spec_amount_in_after_fee
    by_cases hd : s.reserves (resolved_token_in s t) + a * 997 / 1000 = 0
    · rw [if_neg (fun hc => hc hd), if_pos hd]
    · rw [if_pos hd, if_neg hd]
  · intro hd
    unfold spec_amount_in_after_fee at hd
    have h1 : s.reserves (resolved_token_in s t) = 0 :=
      Nat.eq_zero_of_add_eq_zero_right hd
    have h2 : a * 997 / 1000 = 0 := Nat.eq_zero_of_add_eq_zero_left hd
    unfold swapCall
    simp only [swap]
    rw [if_pos hpool, h1, h2]
    simp

/-- Witness for C3: the Scenario 2 swap returns exactly the spec formula value,
90 = floor(1000 * 99 / 1099). -/
theorem claim3_swap_output_matches_spec_witness :
    (90 : Balance) = spec_amount_out 1000 1000 100 :=
  (claim3_swap_output_matches_spec scenario1_state 0 0 100 (Or.inl rfl)).1
    (swapCall scenario1_state 0 0 100).1 90 rfl

/-- Claim C5: across every successful swap on a pool of two distinct assets, the
product of the two reserves does not decrease. -/
theorem claim5_constant_product_nondecreasing (s : SimpleContract)
    (c : AccountId) (t : TokenId) (a : Balance) (s2 : SimpleContract)
    (out : Balance) (hdistinct : s.pool.token_0 ≠ s.pool.token_1)
    (h : swap s c t a = .ok (s2, out)) :
    s.reserves (resolved_token_in s t) * s.reserves (resolved_token_out s t) ≤
      s2.reserves (resolved_token_in s t) *
        s2.reserves (resolved_token_out s t) := by
  have d := swap_ok_destruct h
  have hdiff : resolved_token_in s t ≠ resolved_token_out s t := by
    unfold resolved_token_in resolved_token_out
    by_cases ht : t = s.pool.token_0
    · rw [if_pos ht, if_pos ht]; exact hdistinct
    · rw [if_neg ht, if_neg ht]; exact Ne.symm hdistinct
  obtain ⟨hin, hout2⟩ := d.2.2.2.2 hdiff
  rw [hin, hout2, d.2.2.1]
  exact constant_product_key _ _ _

/-- Witness for C5 on the Scenario 2 swap: 1000 * 1000 ≤ 1099 * 910. -/
theorem claim5_constant_product_nondecreasing_witness :
    scenario1_state.reserves (resolved_token_in scenario1_state 0) *
        scenario1_state.reserves (resolved_token_out scenario1_state 0) ≤
      (swapCall scenario1_state 0 0 100).1.reserves
          (resolved_token_in scenario1_state 0) *
        (swapCall scenario1_state 0 0 100).1.reserves
          (resolved_token_out scenario1_state 0) :=
  claim5_constant_product_nondecreasing scenario1_state 0 0 100
    (swapCall scenario1_state 0 0 100).1 90 (by decide) rfl

/-- Claim C6: `add_liquidity` adds `amount` to both reserves and to both caller
balances, for every starting state over two distinct assets and every amount. -/
theorem claim6_add_liquidity_effect (s : SimpleContract) (c : AccountId)
    (amount : Balance) (hdistinct : s.pool.token_0 ≠ s.pool.token_1) :
    (add_liquidity s c amount).reserves s.pool.token_0 =
      s.reserves s.pool.token_0 + amount ∧
    (add_liquidity s c amount).reserves s.pool.token_1 =
      s.reserves s.pool.token_1 + amount ∧
    (add_liquidity s c amount).balances (c, s.pool.token_0) =
      s.balances (c, s.pool.token_0) + amount ∧
    (add_liquidity s c amount).balances (c, s.pool.token_1) =
      s.balances (c, s.pool.token_1) + amount := by
  have hd2 : s.pool.token_1 ≠ s.pool.token_0 := Ne.symm hdistinct
  refine ⟨?_, ?_, ?_, ?_⟩ <;>
    simp [add_liquidity, mapInsert, hdistinct, hd2, Prod.ext_iff]

/-- Witness for C6: Scenario 1 exactly, a fresh pool over assets 0 and 1 after
`add_liquidity(caller 0, 1000)`. -/
theorem claim6_add_liquidity_effect_witness :
    (add_liquidity (SimpleContract.new 0 1) 0 1000).reserves 0 = 1000 ∧
    (add_liquidity (SimpleContract.new 0 1) 0 1000).reserves 1 = 1000 ∧
    (add_liquidity (SimpleContract.new 0 1) 0 1000).balances (0, 0) = 1000 ∧
    (add_liquidity (SimpleContract.new 0 1) 0 1000).balances (0, 1) = 1000 :=
  claim6_add_liquidity_effect (SimpleContract.new 0 1) 0 1000 (by decide)

/-- Claim C9 (against the spec model, the source body being an empty stub):
withdrawal fails with `PoolEmpty` on zero total supply, fails with
`InsufficientShare` when the recorded claim is below the requested share, and
otherwise withdraws `reserve(asset) * share_amount / total_liquidity_supply` from
each reserve, crediting the caller with those amounts. -/
theorem claim9_remove_liquidity_spec (m : LiquidityModelState) (c : AccountId)
    (sh : Balance) (hdistinct : m.asset_a ≠ m.asset_b) :
    (m.total_liquidity_supply = 0 →
      spec_remove_liquidity m c sh = .error .poolEmpty) ∧
    (m.total_liquidity_supply ≠ 0 → m.claims c < sh →
      spec_remove_liquidity m c sh = .error .insufficientShare) ∧
    (m.total_liquidity_supply ≠ 0 → sh ≤ m.claims c →
      ∃ m2, spec_remove_liquidity m c sh = .ok m2 ∧
        m2.reserves m.asset_a =
          m.reserves m.asset_a -
            m.reserves m.asset_a * sh / m.total_liquidity_supply ∧
        m2.reserves m.asset_b =
          m.reserves m.asset_b -
            m.reserves m.asset_b * sh / m.total_liquidity_supply ∧
        m2.balances (c, m.asset_a) =
          m.balances (c, m.asset_a) +
            m.reserves m.asset_a * sh / m.total_liquidity_supply ∧
        m2.balances (c, m.asset_b) =
          m.balances (c, m.asset_b) +
            m.reserves m.asset_b * sh / m.total_liquidity_supply) := by
  have hd2 : m.asset_b ≠ m.asset_a := Ne.symm hdistinct
  have hk : (c, m.asset_a) ≠ (c, m.asset_b) := by simp [hdistinct]
  have hk2 : (c, m.asset_b) ≠ (c, m.asset_a) := by simp [hd2]
  refine ⟨?_, ?_, ?_⟩
  · intro h0
    rw [spec_remove_liquidity, if_pos h0]
  · intro h0 hcl
    rw [spec_remove_liquidity, if_neg h0, if_pos hcl]
  · intro h0 hcl
    have hncl : ¬ m.claims c < sh := not_lt.mpr hcl
    simp only [spec_remove_liquidity, if_neg h0, if_neg hncl]
    refine ⟨_, rfl, ?_, ?_, ?_, ?_⟩
    · dsimp only
      rw [mapInsert_apply_ne _ _ hdistinct, mapInsert_apply_self]
    · dsimp only
      rw [mapInsert_apply_self, mapInsert_apply_ne _ _ hd2]
    · dsimp only
      rw [mapInsert_apply_ne _ _ hk, mapInsert_apply_self]
    · dsimp only
      rw [mapInsert_apply_self, mapInsert_apply_ne _ _ hk2]

/-- Witness for C9: withdrawing from a model pool with zero outstanding shares
fails with `PoolEmpty`. -/
theorem claim9_remove_liquidity_spec_witness :
    spec_remove_liquidity empty_model 0 3 = .error .poolEmpty :=
  (claim9_remove_liquidity_spec empty_model 0 3 (by decide)).1 rfl

end SimpleContractAmm
